import Mathlib

/-!
Verification of the QR-scanner detection/confirmation engine.

Shallow embedding of the repository's core logic:
  * `src/utils/qrDetectionUtils.ts` — geometry, validation, tracking, region
    assignment (pure functions; JS numbers are modelled as `ℚ`).
  * `src/hooks/useScanStore.ts` — the persistence store's `addScan`
    (the `products : Record<string, Product>` map is modelled as an
    association list in key-insertion order; the `AsyncStorage.setItem`
    outcome is an explicit `storageOk : Bool` parameter; the returned pair is
    `(resolved?, final products state once the promise settles)`).
  * `src/app/(tabs)/index.tsx` (third variant, the one with
    `CONFIRMATION_THRESHOLD = 1`) — the `onCodeScanned` frame callback.
    Within one callback invocation the React state variable `scannedCodes`
    is a fixed closure snapshot: `setScannedCodes` enqueues functional
    updates that are applied only after the callback returns.  The embedding
    makes this explicit: detections are folded over the snapshot, and the
    queued scanned-set insertions are applied when the frame step ends.

Field name note: the TS config fields `minBoxAreaRatio`, `minAspectRatio`
and `maxAspectRatio` are embedded as `minBoxAreaFrac`, `minAspect` and
`maxAspect`.
-/

namespace QrScan

/-- TS interface `QRFrame` from `qrDetectionUtils.ts`. -/
structure QRFrame where
  x : ℚ
  y : ℚ
  width : ℚ
  height : ℚ
deriving DecidableEq

/-- TS interface `ViewfinderRect`. -/
structure ViewfinderRect where
  left : ℚ
  top : ℚ
  width : ℚ
  height : ℚ
deriving DecidableEq

/-- TS interface `DetectionTrack`. -/
structure DetectionTrack where
  code : String
  frame : QRFrame
  hitCount : Nat
  lastSeen : ℚ
deriving DecidableEq

/-- TS interface `BarcodeBox` (the optional `regionIndex?` / `indexInRegion?`
fields become `Option Nat`). -/
structure BarcodeBox where
  id : String
  data : String
  color : String
  frame : QRFrame
  timestamp : ℚ
  regionIndex : Option Nat
  indexInRegion : Option Nat
deriving DecidableEq

/-- TS interface `DetectionConfig` (`minBoxAreaRatio`/`minAspectRatio`/
`maxAspectRatio` are named `minBoxAreaFrac`/`minAspect`/`maxAspect` here). -/
structure DetectionConfig where
  confirmationThreshold : Nat
  iouThreshold : ℚ
  minBoxAreaFrac : ℚ
  minAspect : ℚ
  maxAspect : ℚ
  trackTimeout : ℚ
deriving DecidableEq

/-! ### Geometry (`calculateIoU`, `pointInRect`) -/

/-- Source line `const x1 = Math.max(rect1.x, rect2.x)` in `calculateIoU`. -/
def iouX1 (rect1 rect2 : QRFrame) : ℚ := max rect1.x rect2.x

/-- Source line `const y1 = Math.max(rect1.y, rect2.y)` in `calculateIoU`. -/
def iouY1 (rect1 rect2 : QRFrame) : ℚ := max rect1.y rect2.y

/-- Source line `const x2 = Math.min(rect1.x + rect1.width, rect2.x + rect2.width)`. -/
def iouX2 (rect1 rect2 : QRFrame) : ℚ :=
  min (rect1.x + rect1.width) (rect2.x + rect2.width)

/-- Source line `const y2 = Math.min(rect1.y + rect1.height, rect2.y + rect2.height)`. -/
def iouY2 (rect1 rect2 : QRFrame) : ℚ :=
  min (rect1.y + rect1.height) (rect2.y + rect2.height)

/-- The intersection area computed by `calculateIoU`
(`(x2 - x1) * (y2 - y1)`, and `0` on the early-return branch). -/
def iouIntersection (rect1 rect2 : QRFrame) : ℚ :=
  if iouX2 rect1 rect2 < iouX1 rect1 rect2 ∨ iouY2 rect1 rect2 < iouY1 rect1 rect2 then 0
  else (iouX2 rect1 rect2 - iouX1 rect1 rect2) * (iouY2 rect1 rect2 - iouY1 rect1 rect2)

/-- The union denominator computed by `calculateIoU`
(`area1 + area2 - intersection`). -/
def iouUnion (rect1 rect2 : QRFrame) : ℚ :=
  rect1.width * rect1.height + rect2.width * rect2.height - iouIntersection rect1 rect2

/-- Function `calculateIoU` from `qrDetectionUtils.ts`:
`if (x2 < x1 || y2 < y1) return 0;` then `intersection / union`. -/
def calculateIoU (rect1 rect2 : QRFrame) : ℚ :=
  if iouX2 rect1 rect2 < iouX1 rect1 rect2 ∨ iouY2 rect1 rect2 < iouY1 rect1 rect2 then 0
  else iouIntersection rect1 rect2 / iouUnion rect1 rect2

/-- Function `pointInRect` from `qrDetectionUtils.ts`: inclusive bounds test. -/
def pointInRect (x y : ℚ) (rect : ViewfinderRect) : Bool :=
  decide (rect.left ≤ x ∧ x ≤ rect.left + rect.width ∧
          rect.top ≤ y ∧ y ≤ rect.top + rect.height)

/-! ### Detection validator -/

/-- Function `isValidQRDetection` from `qrDetectionUtils.ts`: center-in-viewfinder,
then minimum area fraction, then aspect bounds (`config.minBoxAreaRatio`
is the `minBoxAreaFrac` field here). -/
def isValidQRDetection (frame : QRFrame) (viewfinder : ViewfinderRect)
    (screenWidth screenHeight : ℚ) (config : DetectionConfig) : Bool :=
  let centerX := frame.x + frame.width / 2
  let centerY := frame.y + frame.height / 2
  if ¬ (pointInRect centerX centerY viewfinder = true) then false
  else
    let screenArea := screenWidth * screenHeight
    let boxArea := frame.width * frame.height
    if boxArea / screenArea < config.minBoxAreaFrac then false
    else
      let aspect := frame.width / frame.height
      if aspect < config.minAspect ∨ config.maxAspect < aspect then false
      else true

/-! ### Track registry -/

/-- The per-track match test inside `findMatchingTrack`'s loop:
`track.code === code` and `calculateIoU(track.frame, frame) >= iouThreshold`. -/
def trackMatches (code : String) (frame : QRFrame) (iouThreshold : ℚ)
    (track : DetectionTrack) : Bool :=
  track.code == code && decide (iouThreshold ≤ calculateIoU track.frame frame)

/-- Function `findMatchingTrack` from `qrDetectionUtils.ts`: linear scan returning the
first matching track together with its index (`{ track, index }`), else
`null`. -/
def findMatchingTrack (code : String) (frame : QRFrame)
    (tracks : List DetectionTrack) (iouThreshold : ℚ) :
    Option (DetectionTrack × Nat) :=
  match tracks with
  | [] => none
  | track :: rest =>
    if trackMatches code frame iouThreshold track then some (track, 0)
    else (findMatchingTrack code frame rest iouThreshold).map (fun r => (r.1, r.2 + 1))

/-- Function `updateTrack` from `qrDetectionUtils.ts`. -/
def updateTrack (track : DetectionTrack) (frame : QRFrame) (timestamp : ℚ) :
    DetectionTrack :=
  { track with hitCount := track.hitCount + 1, frame := frame, lastSeen := timestamp }

/-- Function `createTrack` from `qrDetectionUtils.ts`. -/
def createTrack (code : String) (frame : QRFrame) (timestamp : ℚ) : DetectionTrack :=
  { code := code, frame := frame, hitCount := 1, lastSeen := timestamp }

/-- Function `cleanupExpiredTracks` from `qrDetectionUtils.ts`:
`tracks.filter((track) => currentTime - track.lastSeen < timeout)`. -/
def cleanupExpiredTracks (tracks : List DetectionTrack) (currentTime timeout : ℚ) :
    List DetectionTrack :=
  tracks.filter (fun track => decide (currentTime - track.lastSeen < timeout))

/-- Function `isQRConfirmed` from `qrDetectionUtils.ts`: `track.hitCount >= threshold`. -/
def isQRConfirmed (track : DetectionTrack) (threshold : Nat) : Bool :=
  decide (threshold ≤ track.hitCount)

/-! ### Region assigner -/

/-- The comparator passed to `sort` in `assignRegionsToBoxes`, expressed on
the bounding frames: `if (Math.abs(aCenterY - bCenterY) > 5) return
aCenterY - bCenterY;` else compare horizontal centers. -/
def centerCompare (a b : QRFrame) : ℚ :=
  let aCenterY := a.y + a.height / 2
  let bCenterY := b.y + b.height / 2
  if 5 < |aCenterY - bCenterY| then aCenterY - bCenterY
  else
    let aCenterX := a.x + a.width / 2
    let bCenterX := b.x + b.width / 2
    aCenterX - bCenterX

/-- Comparator order used to model the (stable) JS `sort`: `a` may precede
`b` when the comparator is non-positive. -/
def boxLE (a b : BarcodeBox) : Prop := centerCompare a.frame b.frame ≤ 0

instance boxLE.instDecidable (a b : BarcodeBox) : Decidable (boxLE a b) :=
  inferInstanceAs (Decidable (centerCompare a.frame b.frame ≤ 0))

/-- The `sorted.map((box, idx) => ({...box, regionIndex: Math.floor(idx / 4),
indexInRegion: idx % 4}))` step of `assignRegionsToBoxes`. -/
def assignIdx : Nat → List BarcodeBox → List BarcodeBox
  | _, [] => []
  | idx, box :: rest =>
    { box with regionIndex := some (idx / 4), indexInRegion := some (idx % 4) }
      :: assignIdx (idx + 1) rest

/-- Function `assignRegionsToBoxes` from `qrDetectionUtils.ts`.  The JS `[...boxes]
.sort(cmp)` (a stable sort of a copy) is modelled by the stable
`List.insertionSort`; the input list is untouched (the function is pure). -/
def assignRegionsToBoxes (boxes : List BarcodeBox) : List BarcodeBox :=
  assignIdx 0 (List.insertionSort boxLE boxes)

/-- Modelled from the spec wording for the region assigner: two detections
whose vertical centers differ by strictly less than the epsilon of 5 pixels
are treated as the same row (the code instead treats a difference of
exactly 5 as the same row). -/
def centerCompareSpec (a b : QRFrame) : ℚ :=
  let aCenterY := a.y + a.height / 2
  let bCenterY := b.y + b.height / 2
  if |aCenterY - bCenterY| < 5 then
    let aCenterX := a.x + a.width / 2
    let bCenterX := b.x + b.width / 2
    aCenterX - bCenterX
  else aCenterY - bCenterY

/-- Order corresponding to `centerCompareSpec`. -/
def boxLESpec (a b : BarcodeBox) : Prop := centerCompareSpec a.frame b.frame ≤ 0

instance boxLESpec.instDecidable (a b : BarcodeBox) : Decidable (boxLESpec a b) :=
  inferInstanceAs (Decidable (centerCompareSpec a.frame b.frame ≤ 0))

/-- Region assignment as literally described by the spec sentence (strict
5-pixel tolerance band), used to compare against `assignRegionsToBoxes`. -/
def assignRegionsSpecWords (boxes : List BarcodeBox) : List BarcodeBox :=
  assignIdx 0 (List.insertionSort boxLESpec boxes)

/-! ### Persistence store (`useScanStore.ts`) -/

/-- TS interface `Product` from `useScanStore.ts`. -/
structure Product where
  id : String
  codes : List String
deriving DecidableEq

/-- The `products : Record<string, Product>` object, modelled as an
association list in key-insertion order (JS objects keep string keys in
insertion order and never hold duplicate keys). -/
abbrev Products := List (String × Product)

/-- Lookup `state.products[gtin]` — JS object lookup. -/
def lookupProduct (gtin : String) (products : Products) : Option Product :=
  (products.find? (fun e => e.1 == gtin)).map (fun e => e.2)

/-- Assignment `current[gtin] = p` — JS object assignment: overwrite an existing key in
place, otherwise append the new key at the end. -/
def setProduct (gtin : String) (p : Product) (products : Products) : Products :=
  if (products.find? (fun e => e.1 == gtin)).isSome then
    products.map (fun e => if e.1 == gtin then (e.1, p) else e)
  else products ++ [(gtin, p)]

/-- Removal `delete current[gtin]` — JS object key removal. -/
def removeProduct (gtin : String) (products : Products) : Products :=
  products.filter (fun e => ! (e.1 == gtin))

/-- Function `addScan` from `useScanStore.ts`.  `storageOk` is the outcome of the
`AsyncStorage.setItem` call.  The result is `(resolved?, products)`: the
first component is `true` iff the promise resolves (`false` on either the
duplicate-serial rejection or the storage-failure rejection), the second is
the store's `products` state once the promise has settled (including the
rollback performed on storage failure). -/
def addScan (serialNumber gtin : String) (storageOk : Bool) (products : Products) :
    Bool × Products :=
  let prod := (lookupProduct gtin products).getD { id := gtin, codes := [] }
  if serialNumber ∈ prod.codes then (false, products)
  else
    let pushed : Product := { prod with codes := prod.codes ++ [serialNumber] }
    let current := setProduct gtin pushed products
    if storageOk then (true, current)
    else
      let rolledCodes := pushed.codes.filter (fun c => decide (c ≠ serialNumber))
      let rolled :=
        if rolledCodes.isEmpty then removeProduct gtin current
        else setProduct gtin { pushed with codes := rolledCodes } current
      (false, rolled)

/-! ### Scan coordinator (`onCodeScanned` in `index.tsx`, third variant) -/

/-- One element of the `codes` array delivered by the camera: `code.value`
(missing/empty value modelled as `""`) and `code.frame` (possibly absent). -/
structure Detection where
  value : String
  frame : Option QRFrame
deriving DecidableEq

/-- The React state owned by the scanner screen that the claims are about:
the `scannedCodes` set and the `detectionTracks` array. -/
structure ScanState where
  scannedCodes : List String
  detectionTracks : List DetectionTrack
deriving DecidableEq

/-- Expression `data.split("-")[0]` — the product-group key extraction: the prefix of
`data` before its first `-` separator (the whole string when there is no
separator, matching the JS behavior). -/
def productGroupKey (data : String) : String :=
  ⟨data.data.takeWhile (fun c => c ≠ '-')⟩

/-- Set insertion, `new Set([...prev, data])`. -/
def insertCode (s : List String) (c : String) : List String :=
  if c ∈ s then s else s ++ [c]

/-- The body of the `for (const code of codes)` loop of `onCodeScanned`
(third variant of `index.tsx`).  `scanned` is the `scannedCodes` closure
snapshot — fixed for the whole batch.  The accumulator carries the mutable
`newTracks` array and the list of `addScan(data, productId)` invocations
issued so far (in order). -/
def processCode (config : DetectionConfig) (viewfinder : ViewfinderRect)
    (screenWidth screenHeight : ℚ) (scanned : List String) (now : ℚ)
    (acc : List DetectionTrack × List (String × String)) (code : Detection) :
    List DetectionTrack × List (String × String) :=
  if code.value = "" then acc
  else
    match code.frame with
    | none => acc
    | some frame =>
      if ¬ (isValidQRDetection frame viewfinder screenWidth screenHeight config = true) then acc
      else if code.value ∈ scanned then acc
      else
        match findMatchingTrack code.value frame acc.1 config.iouThreshold with
        | some (track, idx) =>
          let updated := updateTrack track frame now
          let tracks := acc.1.set idx updated
          if isQRConfirmed updated config.confirmationThreshold = true ∧ code.value ∉ scanned
          then (tracks, acc.2 ++ [(code.value, productGroupKey code.value)])
          else (tracks, acc.2)
        | none => (acc.1 ++ [createTrack code.value frame now], acc.2)

/-- One invocation of the `onCodeScanned` callback on a frame's `codes`
batch.  Returns the state after React has applied the queued updates
(`setScannedCodes` insertions in issue order, `setDetectionTracks` with the
final `newTracks`), paired with the list of `addScan` invocations issued by
this batch. -/
def onCodeScanned (config : DetectionConfig) (viewfinder : ViewfinderRect)
    (screenWidth screenHeight : ℚ) (st : ScanState) (codes : List Detection)
    (now : ℚ) : ScanState × List (String × String) :=
  if codes.isEmpty then (st, [])
  else
    let r := codes.foldl
      (processCode config viewfinder screenWidth screenHeight st.scannedCodes now)
      (st.detectionTracks, [])
    ({ scannedCodes := r.2.foldl (fun s c => insertCode s c.1) st.scannedCodes,
       detectionTracks := r.1 }, r.2)

/-- The deferred completion of one confirmation's asynchronous work: when
`addScan` failed (`scanSuccess = false`) the `setTimeout` callback removes
the code from `scannedCodes` so a later detection can retry; on success the
scanned mark is kept. -/
def applyScanOutcome (st : ScanState) (data : String) (scanSuccess : Bool) : ScanState :=
  if scanSuccess then st
  else { st with scannedCodes := st.scannedCodes.filter (fun c => decide (c ≠ data)) }

/-! ### Concrete configuration and inputs used by the scenario claims -/

/-- The constants of the third `index.tsx` variant: threshold 1, IoU 0.03,
minimum area fraction 0.0001, aspect window [0.05, 2], timeout 3000 ms. -/
def cfgThird : DetectionConfig :=
  { confirmationThreshold := 1, iouThreshold := 3 / 100,
    minBoxAreaFrac := 1 / 10000, minAspect := 1 / 20, maxAspect := 2,
    trackTimeout := 3000 }

/-- The ROI of the spec's concrete scenario. -/
def roiDemo : ViewfinderRect := { left := 100, top := 100, width := 200, height := 200 }

/-- The detection of the spec's concrete scenario: value `"ABC-001"`, frame
`{x:150, y:150, width:50, height:50}` (center (175,175), aspect 1). -/
def detDemo : Detection :=
  { value := "ABC-001", frame := some { x := 150, y := 150, width := 50, height := 50 } }

/-- Fresh session state: nothing scanned, no live tracks. -/
def stEmpty : ScanState := { scannedCodes := [], detectionTracks := [] }


/-! ### Helper lemmas -/

lemma iouIntersection_nonneg (a b : QRFrame) : 0 ≤ iouIntersection a b := by
  unfold iouIntersection
  split_ifs with h
  · exact le_refl 0
  · push_neg at h
    exact mul_nonneg (sub_nonneg.mpr h.1) (sub_nonneg.mpr h.2)

lemma iouIntersection_le_left (a b : QRFrame) (hw : 0 ≤ a.width) (hh : 0 ≤ a.height) :
    iouIntersection a b ≤ a.width * a.height := by
  unfold iouIntersection
  split_ifs with h
  · exact mul_nonneg hw hh
  · push_neg at h
    have hx : iouX2 a b - iouX1 a b ≤ a.width := by
      unfold iouX1 iouX2
      have h1 := min_le_left (a.x + a.width) (b.x + b.width)
      have h2 := le_max_left a.x b.x
      linarith
    have hy : iouY2 a b - iouY1 a b ≤ a.height := by
      unfold iouY1 iouY2
      have h1 := min_le_left (a.y + a.height) (b.y + b.height)
      have h2 := le_max_left a.y b.y
      linarith
    exact mul_le_mul hx hy (sub_nonneg.mpr h.2) hw

lemma iouIntersection_le_right (a b : QRFrame) (hw : 0 ≤ b.width) (hh : 0 ≤ b.height) :
    iouIntersection a b ≤ b.width * b.height := by
  unfold iouIntersection
  split_ifs with h
  · exact mul_nonneg hw hh
  · push_neg at h
    have hx : iouX2 a b - iouX1 a b ≤ b.width := by
      unfold iouX1 iouX2
      have h1 := min_le_right (a.x + a.width) (b.x + b.width)
      have h2 := le_max_right a.x b.x
      linarith
    have hy : iouY2 a b - iouY1 a b ≤ b.height := by
      unfold iouY1 iouY2
      have h1 := min_le_right (a.y + a.height) (b.y + b.height)
      have h2 := le_max_right a.y b.y
      linarith
    exact mul_le_mul hx hy (sub_nonneg.mpr h.2) hw

lemma iouUnion_pos (a b : QRFrame) (h1 : 0 < a.width) (h2 : 0 < a.height)
    (h3 : 0 < b.width) (h4 : 0 < b.height) : 0 < iouUnion a b := by
  unfold iouUnion
  have hle := iouIntersection_le_left a b h1.le h2.le
  have hb := mul_pos h3 h4
  linarith

/-! ### Claim theorems: geometry -/

/-- C8: for rectangles with positive width and height, `calculateIoU` is well
defined — the union denominator `iouUnion` is positive, so no division by
zero occurs — and lies in `[0, 1]`; when the rectangles share no overlapping
area (`iouIntersection = 0`, which covers both the disjoint early-return
branch and rectangles that merely touch) the result is exactly `0`, and on
identical rectangles the result is exactly `1`. -/
theorem calculateIoU_bounds (a b : QRFrame) (h1 : 0 < a.width) (h2 : 0 < a.height)
    (h3 : 0 < b.width) (h4 : 0 < b.height) :
    0 < iouUnion a b ∧ 0 ≤ calculateIoU a b ∧ calculateIoU a b ≤ 1 ∧
    (iouIntersection a b = 0 → calculateIoU a b = 0) ∧ calculateIoU a a = 1 := by
  have hu := iouUnion_pos a b h1 h2 h3 h4
  refine ⟨hu, ?_, ?_, ?_, ?_⟩
  · unfold calculateIoU
    split_ifs with h
    · exact le_refl 0
    · exact div_nonneg (iouIntersection_nonneg a b) hu.le
  · unfold calculateIoU
    split_ifs with h
    · exact zero_le_one
    · rw [div_le_one hu]
      have hl := iouIntersection_le_left a b h1.le h2.le
      have hr := iouIntersection_le_right a b h3.le h4.le
      unfold iouUnion
      linarith
  · intro h0
    unfold calculateIoU
    split_ifs with h
    · rfl
    · rw [h0, zero_div]
  · have hcond : ¬ (iouX2 a a < iouX1 a a ∨ iouY2 a a < iouY1 a a) := by
      unfold iouX1 iouX2 iouY1 iouY2
      rw [max_self, min_self, max_self, min_self]
      push_neg
      constructor <;> linarith
    have hinter : iouIntersection a a = a.width * a.height := by
      unfold iouIntersection
      rw [if_neg hcond]
      unfold iouX1 iouX2 iouY1 iouY2
      rw [max_self, min_self, max_self, min_self]
      ring
    have hun : iouUnion a a = a.width * a.height := by
      unfold iouUnion
      rw [hinter]
      ring
    unfold calculateIoU
    rw [if_neg hcond, hinter, hun]
    exact div_self (by positivity)

/-- Witness for C8 at the concrete rectangles `(0,0)×(2,2)` and
`(1,1)×(2,2)` (overlap area 1, union 7). -/
theorem calculateIoU_bounds_witness :
    0 < iouUnion ⟨0, 0, 2, 2⟩ ⟨1, 1, 2, 2⟩ ∧
    0 ≤ calculateIoU ⟨0, 0, 2, 2⟩ ⟨1, 1, 2, 2⟩ ∧
    calculateIoU ⟨0, 0, 2, 2⟩ ⟨1, 1, 2, 2⟩ ≤ 1 ∧
    (iouIntersection ⟨0, 0, 2, 2⟩ ⟨1, 1, 2, 2⟩ = 0 →
      calculateIoU ⟨0, 0, 2, 2⟩ ⟨1, 1, 2, 2⟩ = 0) ∧
    calculateIoU ⟨0, 0, 2, 2⟩ ⟨0, 0, 2, 2⟩ = 1 :=
  calculateIoU_bounds ⟨0, 0, 2, 2⟩ ⟨1, 1, 2, 2⟩ (by norm_num) (by norm_num)
    (by norm_num) (by norm_num)

/-- C9: `calculateIoU` is symmetric in its two arguments (this holds for all
rectangles, in particular for those with positive width and height). -/
theorem calculateIoU_comm (a b : QRFrame) : calculateIoU a b = calculateIoU b a := by
  have hx1 : iouX1 a b = iouX1 b a := max_comm _ _
  have hy1 : iouY1 a b = iouY1 b a := max_comm _ _
  have hx2 : iouX2 a b = iouX2 b a := min_comm _ _
  have hy2 : iouY2 a b = iouY2 b a := min_comm _ _
  have hi : iouIntersection a b = iouIntersection b a := by
    unfold iouIntersection
    rw [hx1, hy1, hx2, hy2]
  have hu : iouUnion a b = iouUnion b a := by
    unfold iouUnion
    rw [hi]
    ring
  unfold calculateIoU
  rw [hx1, hy1, hx2, hy2, hi, hu]

/-! ### Claim theorems: validator -/

/-- C4: `isValidQRDetection` returns `true` exactly when the detection's
geometric center lies in the viewfinder (inclusive `pointInRect` test), the
box area over the total screen area is at least the configured minimum
fraction, and the aspect `width/height` lies within the configured window.
As a Lean function of its arguments it is a pure predicate. -/
theorem isValidQRDetection_iff (frame : QRFrame) (vf : ViewfinderRect)
    (sw sh : ℚ) (cfg : DetectionConfig) :
    isValidQRDetection frame vf sw sh cfg = true ↔
      (pointInRect (frame.x + frame.width / 2) (frame.y + frame.height / 2) vf = true ∧
       cfg.minBoxAreaFrac ≤ frame.width * frame.height / (sw * sh) ∧
       cfg.minAspect ≤ frame.width / frame.height ∧
       frame.width / frame.height ≤ cfg.maxAspect) := by
  simp only [isValidQRDetection]
  split_ifs with hc ha hr
  · simp only [Bool.false_eq_true, false_iff]
    rintro ⟨_, hb, _, _⟩
    exact absurd hb (not_le.mpr ha)
  · simp only [Bool.false_eq_true, false_iff]
    rintro ⟨_, _, hmin, hmax⟩
    rcases hr with h | h
    · exact absurd hmin (not_le.mpr h)
    · exact absurd hmax (not_le.mpr h)
  · simp only [true_iff]
    exact ⟨hc, not_lt.mp ha, not_lt.mp (not_or.mp hr).1, not_lt.mp (not_or.mp hr).2⟩
  · simp only [Bool.false_eq_true, false_iff]
    rintro ⟨hp, _, _, _⟩
    exact hc hp

/-! ### Claim theorems: track registry -/

/-- C5: `findMatchingTrack` returns the first track in list (insertion)
order whose code equals the given code and whose IoU with the given frame is
at least the threshold, together with that track's index (every earlier
track fails the match test, so a later track with higher overlap is never
selected over an earlier matching one); it returns `none` exactly when no
track in the list matches. -/
theorem findMatchingTrack_first (code : String) (frame : QRFrame) (thr : ℚ)
    (tracks : List DetectionTrack) :
    match findMatchingTrack code frame tracks thr with
    | some r =>
        tracks[r.2]? = some r.1 ∧ trackMatches code frame thr r.1 = true ∧
        (tracks.take r.2).all (fun u => ! trackMatches code frame thr u) = true
    | none => tracks.all (fun u => ! trackMatches code frame thr u) = true := by
  induction tracks with
  | nil => simp [findMatchingTrack]
  | cons t rest ih =>
    by_cases hm : trackMatches code frame thr t
    · simp [findMatchingTrack, hm]
    · cases hf : findMatchingTrack code frame rest thr with
      | none =>
        rw [hf] at ih
        simp [findMatchingTrack, hm, hf, ih]
      | some r =>
        rw [hf] at ih
        simp only [findMatchingTrack, hm, if_false, hf, Option.map_some, ite_false]
        refine ⟨?_, ih.2.1, ?_⟩
        · simpa [List.getElem?_cons_succ] using ih.1
        · simp [List.take_succ_cons, hm, ih.2.2]

/-- C6: `cleanupExpiredTracks` keeps exactly the tracks whose age
`currentTime - lastSeen` is strictly below the timeout, unchanged and in
their original relative order (the result is a sublist of the input); every
track at least as old as the timeout is absent, regardless of its
`hitCount`. -/
theorem cleanupExpiredTracks_spec (tracks : List DetectionTrack)
    (currentTime timeout : ℚ) :
    (cleanupExpiredTracks tracks currentTime timeout).Sublist tracks ∧
    ∀ track : DetectionTrack,
      track ∈ cleanupExpiredTracks tracks currentTime timeout ↔
        (track ∈ tracks ∧ currentTime - track.lastSeen < timeout) := by
  refine ⟨List.filter_sublist _, fun track => ?_⟩
  simp [cleanupExpiredTracks, List.mem_filter]

/-! ### Region assigner lemmas -/

lemma centerCompare_swap (a b : QRFrame) : centerCompare b a = - centerCompare a b := by
  simp only [centerCompare]
  rw [abs_sub_comm (b.y + b.height / 2) (a.y + a.height / 2)]
  split_ifs with h <;> ring

lemma boxLE_total (a b : BarcodeBox) : boxLE a b ∨ boxLE b a := by
  unfold boxLE
  rcases le_total (centerCompare a.frame b.frame) 0 with h | h
  · exact Or.inl h
  · right
    rw [centerCompare_swap]
    linarith

lemma chain'_orderedInsert (x : BarcodeBox) (l : List BarcodeBox)
    (h : l.Chain' boxLE) : (l.orderedInsert boxLE x).Chain' boxLE := by
  induction l with
  | nil => simp
  | cons y ys ih =>
    rw [List.orderedInsert]
    split_ifs with hxy
    · exact List.chain'_cons.mpr ⟨hxy, h⟩
    · have hyx : boxLE y x := (boxLE_total x y).resolve_left hxy
      have hys : List.Chain' boxLE ys := h.tail
      rw [List.chain'_cons']
      refine ⟨?_, ih hys⟩
      intro z hz
      cases ys with
      | nil =>
        simp only [List.orderedInsert, List.head?_cons, Option.mem_some_iff] at hz
        rw [← hz]
        exact hyx
      | cons w ws =>
        rw [List.orderedInsert] at hz
        split_ifs at hz with hxw
        · simp only [List.head?_cons, Option.mem_some_iff] at hz
          rw [← hz]
          exact hyx
        · simp only [List.head?_cons, Option.mem_some_iff] at hz
          rw [← hz]
          exact (List.chain'_cons.mp h).1

lemma chain'_insertionSort (l : List BarcodeBox) :
    (List.insertionSort boxLE l).Chain' boxLE := by
  induction l with
  | nil => simp
  | cons x xs ih => simpa [List.insertionSort] using chain'_orderedInsert x _ ih

/-- Erase the region fields, to compare assigner output with its input. -/
def clearRegion (b : BarcodeBox) : BarcodeBox :=
  { b with regionIndex := none, indexInRegion := none }

lemma assignIdx_map_clearRegion (l : List BarcodeBox) : ∀ n : Nat,
    (assignIdx n l).map clearRegion = l.map clearRegion := by
  induction l with
  | nil => intro n; rfl
  | cons b bs ih =>
    intro n
    simp [assignIdx, clearRegion, ih]

lemma assignIdx_map_frame (l : List BarcodeBox) : ∀ n : Nat,
    (assignIdx n l).map (fun b => b.frame) = l.map (fun b => b.frame) := by
  induction l with
  | nil => intro n; rfl
  | cons b bs ih =>
    intro n
    simp [assignIdx, ih]

lemma assignIdx_map_regionIndex (l : List BarcodeBox) : ∀ n : Nat,
    (assignIdx n l).map (fun b => b.regionIndex)
      = (List.range' n l.length).map (fun i => some (i / 4)) := by
  induction l with
  | nil => intro n; rfl
  | cons b bs ih =>
    intro n
    simp [assignIdx, List.range'_succ, ih]

lemma assignIdx_map_indexInRegion (l : List BarcodeBox) : ∀ n : Nat,
    (assignIdx n l).map (fun b => b.indexInRegion)
      = (List.range' n l.length).map (fun i => some (i % 4)) := by
  induction l with
  | nil => intro n; rfl
  | cons b bs ih =>
    intro n
    simp [assignIdx, List.range'_succ, ih]

lemma chain'_boxLE_of_map_frame_eq (l₁ l₂ : List BarcodeBox)
    (h : l₁.map (fun b => b.frame) = l₂.map (fun b => b.frame))
    (hc : l₂.Chain' boxLE) : l₁.Chain' boxLE := by
  have h1 := (List.chain'_map (R := fun f g : QRFrame => centerCompare f g ≤ 0)
    (fun b : BarcodeBox => b.frame) (l := l₁))
  have h2 := (List.chain'_map (R := fun f g : QRFrame => centerCompare f g ≤ 0)
    (fun b : BarcodeBox => b.frame) (l := l₂))
  exact h1.mp (h ▸ h2.mpr hc)

/-! ### Claim theorems: region assigner -/

/-- C7 counterexample: the claim's tolerance band is strict (`< 5` treated as
the same row), but the code's comparator keeps the vertical ordering only
when the difference exceeds 5, so a pair of boxes whose vertical centers
differ by exactly 5 is ordered horizontally by `assignRegionsToBoxes` while
the claim's wording (`assignRegionsSpecWords`) orders it vertically: box `A`
has center `(10, 0)` and box `B` center `(0, 5)`. -/
theorem assignRegions_boundary_counterexample :
    (assignRegionsToBoxes
        [{ id := "A", data := "A", color := "", frame := { x := 8, y := -2, width := 4, height := 4 },
           timestamp := 0, regionIndex := none, indexInRegion := none },
         { id := "B", data := "B", color := "", frame := { x := -2, y := 3, width := 4, height := 4 },
           timestamp := 0, regionIndex := none, indexInRegion := none }]).map (fun b => b.data)
      = ["B", "A"] ∧
    (assignRegionsSpecWords
        [{ id := "A", data := "A", color := "", frame := { x := 8, y := -2, width := 4, height := 4 },
           timestamp := 0, regionIndex := none, indexInRegion := none },
         { id := "B", data := "B", color := "", frame := { x := -2, y := 3, width := 4, height := 4 },
           timestamp := 0, regionIndex := none, indexInRegion := none }]).map (fun b => b.data)
      = ["A", "B"] := by
  constructor <;>
    norm_num +decide [assignRegionsToBoxes, assignRegionsSpecWords, assignIdx,
      boxLE, boxLESpec, centerCompare, centerCompareSpec, List.insertionSort,
      List.orderedInsert]

/-- C7 (amended): `assignRegionsToBoxes` returns the input boxes (up to the
overwritten region fields) reordered so that adjacent output boxes are in
comparator order — vertical centers first, except that two boxes whose
vertical centers differ by *at most* 5 pixels are treated as the same row
and ordered by horizontal center — and the box at sorted position `idx`
carries `regionIndex = idx / 4` and `indexInRegion = idx % 4`.  The function
is pure, so re-invocation on unchanged input yields the same pairing and the
input list is not modified. -/
theorem assignRegionsToBoxes_spec (boxes : List BarcodeBox) :
    ((assignRegionsToBoxes boxes).map clearRegion).Perm (boxes.map clearRegion) ∧
    (assignRegionsToBoxes boxes).Chain' boxLE ∧
    (assignRegionsToBoxes boxes).map (fun b => b.regionIndex)
      = (List.range boxes.length).map (fun i => some (i / 4)) ∧
    (assignRegionsToBoxes boxes).map (fun b => b.indexInRegion)
      = (List.range boxes.length).map (fun i => some (i % 4)) := by
  unfold assignRegionsToBoxes
  refine ⟨?_, ?_, ?_, ?_⟩
  · rw [assignIdx_map_clearRegion]
    exact (List.perm_insertionSort boxLE boxes).map clearRegion
  · exact chain'_boxLE_of_map_frame_eq _ _ (assignIdx_map_frame _ 0)
      (chain'_insertionSort boxes)
  · rw [assignIdx_map_regionIndex, List.length_insertionSort, List.range_eq_range']
  · rw [assignIdx_map_indexInRegion, List.length_insertionSort, List.range_eq_range']

/-! ### Store lemmas -/

lemma find?_key_eq_none_of_lookup_none (gtin : String) (products : Products)
    (h : lookupProduct gtin products = none) :
    products.find? (fun e => e.1 == gtin) = none := by
  unfold lookupProduct at h
  cases hf : products.find? (fun e => e.1 == gtin) with
  | none => rfl
  | some e =>
    rw [hf] at h
    simp at h

lemma find?_key_of_lookup_some (gtin : String) (products : Products) (p : Product)
    (h : lookupProduct gtin products = some p) :
    ∃ e, products.find? (fun e => e.1 == gtin) = some e ∧ e.2 = p := by
  unfold lookupProduct at h
  cases hf : products.find? (fun e => e.1 == gtin) with
  | none =>
    rw [hf] at h
    simp at h
  | some e =>
    rw [hf] at h
    simp at h
    exact ⟨e, rfl, h⟩

lemma filter_key_ne_of_find?_none (gtin : String) (products : Products)
    (h : products.find? (fun e => e.1 == gtin) = none) :
    products.filter (fun e => ! (e.1 == gtin)) = products := by
  rw [List.filter_eq_self]
  intro e he
  have hne := List.find?_eq_none.mp h e he
  simp at hne
  simpa using hne

lemma map_replace_key_self (gtin : String) (p : Product) :
    ∀ products : Products, (products.map Prod.fst).Nodup →
    products.find? (fun e => e.1 == gtin) = some ⟨gtin, p⟩ →
    products.map (fun e => if e.1 == gtin then (e.1, p) else e) = products := by
  intro products
  induction products with
  | nil =>
    intro _ hfind
    simp at hfind
  | cons a rest ih =>
    intro hnd hfind
    by_cases ha : (a.1 == gtin) = true
    · rw [List.find?_cons_of_pos (p := fun e => e.1 == gtin) rest ha] at hfind
      have haeq : a = (gtin, p) := Option.some_inj.mp hfind
      have hkey : a.1 = gtin := by rw [haeq]
      rw [List.map_cons] at hnd
      have hnotin : gtin ∉ rest.map Prod.fst := hkey ▸ (List.nodup_cons.mp hnd).1
      simp only [List.map_cons, if_pos ha]
      have hrest : rest.map (fun e => if e.1 == gtin then (e.1, p) else e) = rest := by
        have hpt : ∀ e ∈ rest, (if e.1 == gtin then (e.1, p) else e) = id e := by
          intro e he
          have hene : e.1 ≠ gtin := fun hc => hnotin (hc ▸ List.mem_map_of_mem Prod.fst he)
          simp [hene]
        rw [List.map_congr_left hpt, List.map_id]
      rw [hrest]
      have hpa : (a.1, p) = a := by rw [haeq]
      rw [hpa]
    · rw [List.find?_cons_of_neg (p := fun e => e.1 == gtin) rest (by simpa using ha)] at hfind
      rw [List.map_cons] at hnd
      have hnd' : (rest.map Prod.fst).Nodup := (List.nodup_cons.mp hnd).2
      simp only [List.map_cons, if_neg ha, ih hnd' hfind]

lemma find?_map_key (gtin : String) (p : Product) (products : Products) :
    (products.map (fun e => if e.1 == gtin then (e.1, p) else e)).find?
        (fun e => e.1 == gtin)
      = (products.find? (fun e => e.1 == gtin)).map
          (fun e => if e.1 == gtin then (e.1, p) else e) := by
  rw [List.find?_map]
  have hq : ((fun e : String × Product => e.1 == gtin) ∘
      fun e : String × Product => if e.1 == gtin then (e.1, p) else e)
      = (fun e : String × Product => e.1 == gtin) := by
    funext e
    by_cases hc : (e.1 == gtin) = true <;> simp [Function.comp, hc]
  rw [hq]

lemma setProduct_setProduct (gtin : String) (p q : Product) (products : Products) :
    setProduct gtin q (setProduct gtin p products) = setProduct gtin q products := by
  by_cases hf : (products.find? (fun e => e.1 == gtin)).isSome = true
  · obtain ⟨e0, he0⟩ := Option.isSome_iff_exists.mp hf
    unfold setProduct
    rw [if_pos hf, if_pos hf]
    have hfm : ((products.map (fun e => if e.1 == gtin then (e.1, p) else e)).find?
        (fun e => e.1 == gtin)).isSome = true := by
      rw [find?_map_key, he0]
      rfl
    rw [if_pos hfm, List.map_map]
    congr 1
    funext e
    by_cases hc : (e.1 == gtin) = true <;> simp [Function.comp, hc]
  · unfold setProduct
    rw [if_neg hf, if_neg hf]
    have hnone : products.find? (fun e => e.1 == gtin) = none :=
      Option.not_isSome_iff_eq_none.mp (by simpa using hf)
    have hfapp : ((products ++ [(gtin, p)]).find? (fun e => e.1 == gtin)).isSome = true := by
      rw [List.find?_append, hnone]
      simp
    rw [if_pos hfapp, List.map_append]
    have hid : products.map (fun e => if e.1 == gtin then (e.1, q) else e) = products := by
      have hpt : ∀ e ∈ products, (if e.1 == gtin then (e.1, q) else e) = id e := by
        intro e he
        have := List.find?_eq_none.mp hnone e he
        simp at this
        simp [this]
      rw [List.map_congr_left hpt, List.map_id]
    rw [hid]
    simp

lemma setProduct_lookup_self (gtin : String) (p : Product) (products : Products)
    (hkeys : (products.map Prod.fst).Nodup)
    (hl : lookupProduct gtin products = some p) :
    setProduct gtin p products = products := by
  obtain ⟨e0, hf0, he0⟩ := find?_key_of_lookup_some gtin products p hl
  have he0full : e0 = (gtin, p) :=
    Prod.ext (by simpa using List.find?_some hf0) he0
  rw [he0full] at hf0
  unfold setProduct
  rw [if_pos (by rw [hf0]; rfl)]
  exact map_replace_key_self gtin p products hkeys hf0


/-! ### Claim theorems: persistence store -/

/-- C10: if the serial number is already present in `products[gtin].codes`,
`addScan` rejects (the promise does not resolve) and leaves the entire
products state unchanged — the serial number is not appended a second time
and no other product entry is modified — regardless of the storage
outcome. -/
theorem addScan_duplicate_rejected (serialNumber gtin : String) (storageOk : Bool)
    (products : Products) (p : Product)
    (hlook : lookupProduct gtin products = some p)
    (hmem : serialNumber ∈ p.codes) :
    addScan serialNumber gtin storageOk products = (false, products) := by
  simp only [addScan, hlook, Option.getD_some]
  rw [if_pos hmem]

/-- Witness for C10: a store already holding serial `ABC-001` under GTIN
`ABC` rejects a second `addScan` of the same serial and is unchanged. -/
theorem addScan_duplicate_rejected_witness :
    addScan "ABC-001" "ABC" true [("ABC", { id := "ABC", codes := ["ABC-001"] })]
      = (false, [("ABC", { id := "ABC", codes := ["ABC-001"] })]) :=
  addScan_duplicate_rejected "ABC-001" "ABC" true
    [("ABC", { id := "ABC", codes := ["ABC-001"] })]
    { id := "ABC", codes := ["ABC-001"] } (by decide) (by decide)

/-- C3 counterexample: on storage failure the rollback deletes a
pre-existing product entry whose code list was empty, so the products state
is not restored to its value before the call: from
`[("G", ⟨"G", []⟩)]`, a failing `addScan "S" "G"` ends in `[]`. -/
theorem addScan_empty_entry_not_restored :
    addScan "S" "G" false [("G", { id := "G", codes := [] })] = (false, []) ∧
    (addScan "S" "G" false [("G", { id := "G", codes := [] })]).2
      ≠ [("G", { id := "G", codes := [] })] := by
  decide

/-- C3 (amended): when the storage write fails, `addScan` rejects and the
failure is recoverable: provided the `gtin` entry, if present, has a
nonempty code list (the store's own operations only ever leave nonempty
entries; a pre-existing entry with an empty code list would instead be
deleted by the rollback) and keys are unique as in a JS object, the products
state is restored exactly to its value before the call — in particular the
serial number is not recorded and no other entry is modified — and the
deferred completion removes the code from the scanned set so a later
detection of the same code can retry.  The frame pipeline itself is a total
function of its inputs, so the failure never halts processing. -/
theorem addScan_failure_rollback (serialNumber gtin data : String)
    (products : Products) (st : ScanState)
    (hkeys : (products.map Prod.fst).Nodup)
    (hne : ∀ p, lookupProduct gtin products = some p → p.codes ≠ []) :
    (addScan serialNumber gtin false products).1 = false ∧
    (addScan serialNumber gtin false products).2 = products ∧
    data ∉ (applyScanOutcome st data false).scannedCodes := by
  have key : addScan serialNumber gtin false products = (false, products) := by
    cases hl : lookupProduct gtin products with
    | none =>
      have hf := find?_key_eq_none_of_lookup_none gtin products hl
      have hfilter := filter_key_ne_of_find?_none gtin products hf
      simp only [addScan, hl, Option.getD_none]
      simp [setProduct, removeProduct, hf, hfilter, List.filter_append]
    | some p =>
      have hpne := hne p hl
      by_cases hdup : serialNumber ∈ p.codes
      · simp only [addScan, hl, Option.getD_some]
        rw [if_pos hdup]
      · simp only [addScan, hl, Option.getD_some]
        rw [if_neg hdup]
        have hroll : (p.codes ++ [serialNumber]).filter
            (fun c => decide (c ≠ serialNumber)) = p.codes := by
          rw [List.filter_append]
          have h1 : p.codes.filter (fun c => decide (c ≠ serialNumber)) = p.codes := by
            rw [List.filter_eq_self]
            intro c hc
            simp only [decide_eq_true_eq]
            exact fun hcs => hdup (hcs ▸ hc)
          have h2 : ([serialNumber] : List String).filter
              (fun c => decide (c ≠ serialNumber)) = [] := by simp
          rw [h1, h2, List.append_nil]
        have hempty : p.codes.isEmpty = false := by
          cases hcodes : p.codes with
          | nil => exact absurd hcodes hpne
          | cons c cs => rfl
        simp only [Bool.false_eq_true, if_false, hroll, hempty]
        rw [setProduct_setProduct]
        have hback : ({ { p with codes := p.codes ++ [serialNumber] } with
            codes := p.codes } : Product) = p := rfl
        rw [hback, setProduct_lookup_self gtin p products hkeys hl]
  refine ⟨by rw [key], by rw [key], ?_⟩
  simp [applyScanOutcome, List.mem_filter]

/-- Witness for C3 at a store holding one product `ABC` with one earlier
serial: a failing `addScan` of a new serial rejects, restores the store, and
the deferred completion clears the scanned mark. -/
theorem addScan_failure_rollback_witness :
    (addScan "NEW" "ABC" false [("ABC", { id := "ABC", codes := ["OLD"] })]).1 = false ∧
    (addScan "NEW" "ABC" false [("ABC", { id := "ABC", codes := ["OLD"] })]).2
      = [("ABC", { id := "ABC", codes := ["OLD"] })] ∧
    "ABC-001" ∉ (applyScanOutcome { scannedCodes := ["ABC-001"], detectionTracks := [] }
      "ABC-001" false).scannedCodes :=
  addScan_failure_rollback "NEW" "ABC" "ABC-001"
    [("ABC", { id := "ABC", codes := ["OLD"] })]
    { scannedCodes := ["ABC-001"], detectionTracks := [] }
    (by decide)
    (fun p hp => by
      have h0 : lookupProduct "ABC" [("ABC", { id := "ABC", codes := ["OLD"] })]
          = some { id := "ABC", codes := ["OLD"] } := by decide
      rw [h0] at hp
      rw [← Option.some_inj.mp hp]
      decide)


/-! ### Claim theorems: scan coordinator -/

/-- C1 (failing-input evaluation): a single frame batch containing three
valid overlapping detections of `"ABC-001"` makes the coordinator invoke
`addScan("ABC-001", "ABC")` twice.  The `setScannedCodes` call issued at the
first confirmation only enqueues a state update — the `scannedCodes` closure
snapshot read by the remaining loop iterations is unchanged — so the second
matched re-detection confirms again before the scanned mark is visible,
contradicting the at-most-once claim. -/
theorem onCodeScanned_duplicate_batch_double_call :
    (onCodeScanned cfgThird roiDemo 400 800 stEmpty [detDemo, detDemo, detDemo] 1000).2
      = [("ABC-001", "ABC"), ("ABC-001", "ABC")] := by
  norm_num +decide [onCodeScanned, processCode, findMatchingTrack, trackMatches,
    updateTrack, createTrack, isQRConfirmed, isValidQRDetection, pointInRect,
    calculateIoU, iouIntersection, iouUnion, iouX1, iouX2, iouY1, iouY2,
    productGroupKey, insertCode, cfgThird, roiDemo, detDemo, stEmpty]

/-- C2 counterexample: with `confirmationThreshold = 1`, processing one
frame that contains a single valid detection of `"ABC-001"` (fresh session:
no tracks, nothing scanned) issues *zero* `addScan` invocations — the
detection is accepted and creates a track, but the confirmation check lives
only in the matched-track branch, so a first sighting never confirms. -/
theorem onCodeScanned_first_sighting_no_call :
    (onCodeScanned cfgThird roiDemo 400 800 stEmpty [detDemo] 1000).2 = [] ∧
    (onCodeScanned cfgThird roiDemo 400 800 stEmpty [detDemo] 1000).1.detectionTracks
      = [createTrack "ABC-001" { x := 150, y := 150, width := 50, height := 50 } 1000] := by
  constructor <;>
    norm_num +decide [onCodeScanned, processCode, findMatchingTrack, trackMatches,
      updateTrack, createTrack, isQRConfirmed, isValidQRDetection, pointInRect,
      calculateIoU, iouIntersection, iouUnion, iouX1, iouX2, iouY1, iouY2,
      productGroupKey, insertCode, cfgThird, roiDemo, detDemo, stEmpty]

/-- C2 (amended): with `confirmationThreshold = 1` the first accepted
sighting of `"ABC-001"` creates a track and issues no `addScan`; the second
accepted sighting (a later frame whose detection matches the track) confirms
and issues exactly one `addScan("ABC-001", "ABC")`. -/
theorem onCodeScanned_second_sighting_confirms :
    (onCodeScanned cfgThird roiDemo 400 800 stEmpty [detDemo] 1000).2 = [] ∧
    (onCodeScanned cfgThird roiDemo 400 800
        (onCodeScanned cfgThird roiDemo 400 800 stEmpty [detDemo] 1000).1
        [detDemo] 1033).2
      = [("ABC-001", "ABC")] := by
  constructor <;>
    norm_num +decide [onCodeScanned, processCode, findMatchingTrack, trackMatches,
      updateTrack, createTrack, isQRConfirmed, isValidQRDetection, pointInRect,
      calculateIoU, iouIntersection, iouUnion, iouX1, iouX2, iouY1, iouY2,
      productGroupKey, insertCode, cfgThird, roiDemo, detDemo, stEmpty]

end QrScan
